import Mathlib

/-!
Verification development for the formily-mvp quality-enhancement service.

The repository has two Python source files:
  * `server/python-quality-service.py` — CASCADE background removal
    (`remove_background`) and mesh normalization (`normalize_mesh_scale`).
  * `server/opencv-fallback.py` — COMPOSITE background removal
    (`remove_background_opencv`).

This file shallowly embeds both pipelines.  Pure numeric code is embedded
over `ℚ`; the one place where IEEE behaviour matters (the unguarded
`target_size_mm / max_extent` division, which in numpy yields `inf` with
only a warning) is embedded with an explicit finite/non-finite value type
`FQ`.  Library calls (OpenCV primitives, `trimesh` internals) whose source
is not part of the repository are modelled as explicit inputs or as small
faithful models, each documented at its definition.
-/

/-- A numpy double, idealized: either a finite rational or a non-finite
value (`inf`/`nan`, which this development does not need to distinguish).
Division by zero produces `nonfin` instead of raising, exactly as numpy
float division does (it emits a warning, not an exception). -/
inductive FQ where
  | fin (q : ℚ)
  | nonfin
deriving DecidableEq

/-- Addition; any non-finite operand contaminates the result. -/
def FQ.add : FQ → FQ → FQ
  | .fin a, .fin b => .fin (a + b)
  | _, _ => .nonfin

/-- Subtraction; any non-finite operand contaminates the result. -/
def FQ.sub : FQ → FQ → FQ
  | .fin a, .fin b => .fin (a - b)
  | _, _ => .nonfin

/-- Multiplication; any non-finite operand contaminates the result
(numpy: `0 * inf = nan`, `q * inf = ±inf`, both non-finite). -/
def FQ.mul : FQ → FQ → FQ
  | .fin a, .fin b => .fin (a * b)
  | _, _ => .nonfin

/-- Pairwise maximum (numpy `max` propagates `nan`; over all-finite data it
is the ordinary maximum). -/
def FQ.fmax : FQ → FQ → FQ
  | .fin a, .fin b => .fin (max a b)
  | _, _ => .nonfin

/-- Pairwise minimum, same conventions as `FQ.fmax`. -/
def FQ.fmin : FQ → FQ → FQ
  | .fin a, .fin b => .fin (min a b)
  | _, _ => .nonfin

/-- IEEE-style division of finite doubles: division by zero yields a
non-finite value (numpy prints a warning and continues), otherwise the
exact quotient. -/
def fdivQ (a b : ℚ) : FQ :=
  if b = 0 then .nonfin else .fin (a / b)

/-- Maximum of a rational list, seeded at the head (numpy `max` over a
nonempty array; the `0` default for `[]` is never reached on code paths). -/
def qmaxL : List ℚ → ℚ
  | [] => 0
  | x :: xs => xs.foldl max x

/-- Minimum of a rational list, seeded at the head. -/
def qminL : List ℚ → ℚ
  | [] => 0
  | x :: xs => xs.foldl min x

/-- Maximum of an `FQ` list, seeded at the head. -/
def fmaxL : List FQ → FQ
  | [] => .nonfin
  | x :: xs => xs.foldl FQ.fmax x

/-- Minimum of an `FQ` list, seeded at the head. -/
def fminL : List FQ → FQ
  | [] => .nonfin
  | x :: xs => xs.foldl FQ.fmin x

/-- Sum of an `FQ` list. -/
def fsumL (l : List FQ) : FQ := l.foldl FQ.add (.fin 0)

/-- Mean of an `FQ` list (`nonfin` as soon as the sum is). -/
def fcentroid (l : List FQ) : FQ :=
  match fsumL l with
  | .fin s => .fin (s / l.length)
  | .nonfin => .nonfin

/-- A 3-D vertex with exact rational coordinates. -/
abbrev V3 := ℚ × ℚ × ℚ

/-- A triangular face: three vertex indices. -/
abbrev Face := ℕ × ℕ × ℕ

/-- A trimesh geometry: vertex array plus face-index array. -/
structure Geometry where
  vertices : List V3
  faces : List Face
deriving DecidableEq

/-- What `trimesh.load` can hand back to `normalize_mesh_scale`:
a scene of named geometries (`hasattr(mesh, 'geometry')`), a single
mesh (`hasattr(mesh, 'vertices')`), or something with neither attribute. -/
inductive LoadedAsset where
  | scene (geoms : List (String × Geometry))
  | single (g : Geometry)
  | other
deriving DecidableEq

/-- The geometries kept by the merge loop in `normalize_mesh_scale`
(lines 174–178): exactly those with `len(geom.vertices) > 0`. -/
def nonEmptyGeoms (gs : List (String × Geometry)) : List Geometry :=
  (gs.filter fun p => decide (0 < p.2.vertices.length)).map (fun p => p.2)

/-- One step of `trimesh.util.concatenate`: append the vertex array and
append the face array with indices offset by the number of vertices
accumulated so far. -/
def appendGeom (acc g : Geometry) : Geometry :=
  ⟨acc.vertices ++ g.vertices,
   acc.faces ++ g.faces.map fun f =>
     (f.1 + acc.vertices.length, f.2.1 + acc.vertices.length,
      f.2.2 + acc.vertices.length)⟩

/-- `trimesh.util.concatenate` over a list of geometries: stack vertex
arrays, offsetting each geometry's face indices by the vertices that
precede it. -/
def concatGeoms (gs : List Geometry) : Geometry :=
  gs.foldl appendGeom ⟨[], []⟩

/-- Lines 170–190 of `normalize_mesh_scale`: a scene is merged (raising
`ValueError("No valid geometries found in GLB file")` when every geometry
is empty, caught by the outer handler), a single mesh is used as-is, and
anything else raises `ValueError("Unable to extract mesh data from GLB
file")`. -/
def loadMerged : LoadedAsset → Except String Geometry
  | .scene gs =>
      let ne := nonEmptyGeoms gs
      if ne.isEmpty then .error "No valid geometries found in GLB file"
      else .ok (concatGeoms ne)
  | .single g => .ok g
  | .other => .error "Unable to extract mesh data from GLB file"

/-- x-coordinates of a vertex list. -/
def xsOf (vs : List V3) : List ℚ := vs.map fun v => v.1

/-- y-coordinates of a vertex list. -/
def ysOf (vs : List V3) : List ℚ := vs.map fun v => v.2.1

/-- z-coordinates of a vertex list. -/
def zsOf (vs : List V3) : List ℚ := vs.map fun v => v.2.2

/-- `mesh.bounding_box.extents`: per-axis `max − min` of the vertex
coordinates. -/
def extentsQ (vs : List V3) : V3 :=
  (qmaxL (xsOf vs) - qminL (xsOf vs),
   qmaxL (ysOf vs) - qminL (ysOf vs),
   qmaxL (zsOf vs) - qminL (zsOf vs))

/-- Python `max` over the three extents. -/
def max3 (e : V3) : ℚ := max e.1 (max e.2.1 e.2.2)

/-- `mesh.centroid`, idealized as the mean of the vertices (trimesh's
area-weighted centroid falls back to a vertex mean for degenerate data;
the claims in this development only use that the centroid is
translation-equivariant, which holds for either variant). -/
def centroidQ (vs : List V3) : V3 :=
  ((xsOf vs).sum / vs.length,
   (ysOf vs).sum / vs.length,
   (zsOf vs).sum / vs.length)

/-- A transformed vertex: coordinates are doubles that may have become
non-finite. -/
abbrev FV3 := FQ × FQ × FQ

/-- Lines 206 and 210: `mesh.vertices -= mesh.centroid` followed by
`mesh.vertices *= scale_factor`.  The subtraction is exact; the scale
factor may be non-finite. -/
def transVerts (vs : List V3) (c : V3) (s : FQ) : List FV3 :=
  vs.map fun v =>
    (s.mul (.fin (v.1 - c.1)), s.mul (.fin (v.2.1 - c.2.1)),
     s.mul (.fin (v.2.2 - c.2.2)))

/-- Bounding-box extents of the transformed (possibly non-finite) vertex
array. -/
def extentsF (tv : List FV3) : FV3 :=
  ((fmaxL (tv.map fun v => v.1)).sub (fminL (tv.map fun v => v.1)),
   (fmaxL (tv.map fun v => v.2.1)).sub (fminL (tv.map fun v => v.2.1)),
   (fmaxL (tv.map fun v => v.2.2)).sub (fminL (tv.map fun v => v.2.2)))

/-- Python `max` over the three new extents. -/
def fmax3 (e : FV3) : FQ := FQ.fmax e.1 (FQ.fmax e.2.1 e.2.2)

/-- Per-axis centroid of the transformed vertices. -/
def fcentroid3 (tv : List FV3) : FV3 :=
  (fcentroid (tv.map fun v => v.1),
   fcentroid (tv.map fun v => v.2.1),
   fcentroid (tv.map fun v => v.2.2))

/-- The undirected edge between two vertex indices, as a sorted pair. -/
def sortPair (a b : ℕ) : ℕ × ℕ := if a ≤ b then (a, b) else (b, a)

/-- All (undirected) edges of a face list, with multiplicity. -/
def allEdges (faces : List Face) : List (ℕ × ℕ) :=
  faces.flatMap fun f => [sortPair f.1 f.2.1, sortPair f.2.1 f.2.2, sortPair f.1 f.2.2]

/-- `mesh.is_watertight`: every edge is shared by exactly two faces. -/
def isWatertightB (faces : List Face) : Bool :=
  (allEdges faces).all fun e => decide ((allEdges faces).count e = 2)

/-- Modelled from the spec: `mesh.fill_holes()` of the trimesh library
(not part of this repository).  Per the spec, repair "never reduces the
face or vertex count below its pre-repair value (it may only add geometry
to close gaps)".  This model closes the simplest gap trimesh closes: when
the boundary edges (edges on exactly one face) form a single triangle, the
missing triangle is appended; otherwise the face list is unchanged.
Vertices are never touched. -/
def fillHoles (faces : List Face) : List Face :=
  let es := allEdges faces
  let boundary := (es.filter fun e => decide (es.count e = 1)).dedup
  if boundary.length = 3 then
    let vs := (boundary.flatMap fun e => [e.1, e.2]).dedup
    if vs.length = 3 then
      faces ++ [(vs.getD 0 0, vs.getD 1 0, vs.getD 2 0)]
    else faces
  else faces

/-- Lines 220–232: the face list actually exported — repaired via
`fill_holes` when the merged mesh is not watertight. -/
def exportFaces (faces : List Face) : List Face :=
  if isWatertightB faces then faces else fillHoles faces

/-- The success dictionary built at lines 242–253 (the `stl_file_size`
field, a function of the byte encoding only, is not modelled). -/
structure NormOk where
  original_extents : V3
  new_extents : FV3
  scale_factor : FQ
  target_size_mm : ℚ
  new_max_extent_mm : FQ
  vertex_count : ℕ
  face_count : ℕ
  is_watertight : Bool
deriving DecidableEq

/-- `normalize_mesh_scale` (lines 149–260).  Returns the structured
result (`.error` for the `except` branch producing
`{"success": False, "error": ...}`) together with a flag recording
whether the STL output file was written (the `mesh.export` call at line
235 is reached on every path that does not raise earlier; the unguarded
numpy division at line 202 does not raise). -/
def normalize_mesh_scale (asset : LoadedAsset) (target : ℚ) :
    Except String NormOk × Bool :=
  match loadMerged asset with
  | .error e => (.error e, false)
  | .ok m =>
    let oExt := extentsQ m.vertices
    let maxE := max3 oExt
    let s := fdivQ target maxE
    let c := centroidQ m.vertices
    let tv := transVerts m.vertices c s
    let nExt := extentsF tv
    let outFaces := exportFaces m.faces
    (.ok ⟨oExt, nExt, s, target, fmax3 nExt, tv.length, outFaces.length,
          isWatertightB outFaces⟩, true)

/-- Projection used to state decidable facts about `Except` results. -/
def exceptOk {ε α : Type} : Except ε α → Option α
  | .ok a => some a
  | .error _ => none

/-- A decoded input image as `cv2.imread` returns it (3-channel BGR):
only its shape is relevant to the claims about the two pipelines. -/
structure Img where
  h : ℕ
  w : ℕ
deriving DecidableEq

/-- Shape of an output image written by the CASCADE pipeline
(`cv2.cvtColor(..., COLOR_BGR2BGRA)` keeps height and width and yields 4
channels). -/
structure CascadeOut where
  h : ℕ
  w : ℕ
  channels : ℕ
deriving DecidableEq

/-- Outcomes of the library calls made by `remove_background`
(python-quality-service.py).  The OpenCV primitives are not part of the
repository, so each fallible call is an input of the model:
`grabCut` is the `cv2.grabCut` call of method 1 (`.error` = the exception
caught at line 73); `contours` is the threshold/contour stage of method 2
(`.error` = the exception caught at line 115, `.ok cs` = the contour list
tested by `if contours:` at line 91); `imwriteOk` is the boolean returned
by every `cv2.imwrite` call — the code never reads it. -/
structure CascadeEnv where
  grabCut : Except String Unit
  contours : Except String (List ℕ)
  imwriteOk : Bool

/-- Observable outcome of one `remove_background` call: the returned
boolean, which method produced the final mask, which method bodies were
entered, and the output file on disk (`none` when no write succeeded). -/
structure CascadeResult where
  success : Bool
  used : Option ℕ
  invoked : List ℕ
  written : Option CascadeOut
deriving DecidableEq

/-- `remove_background` (python-quality-service.py lines 19–146), the
CASCADE policy.  Method numbering follows the code (1 = GrabCut,
2 = threshold/contour, 3 = circular last resort); the spec calls methods
2 and 3 here "method 4" and "method 5".  Control flow: method 1's body is
always entered; an exception there falls through to method 2; an exception
there, or an empty contour list, falls through to method 3, whose body is
pure and cannot raise.  Every successful method converts the image to
BGRA (same height/width, 4 channels) and writes it; the `cv2.imwrite`
return value is ignored. -/
def remove_background (img : Option Img) (env : CascadeEnv) : CascadeResult :=
  match img with
  | none => ⟨false, none, [], none⟩
  | some im =>
    let wr : Option CascadeOut := if env.imwriteOk then some ⟨im.h, im.w, 4⟩ else none
    match env.grabCut with
    | .ok _ => ⟨true, some 1, [1], wr⟩
    | .error _ =>
      match env.contours with
      | .ok cs =>
        if cs.isEmpty then ⟨true, some 3, [1, 2, 3], wr⟩
        else ⟨true, some 2, [1, 2], wr⟩
      | .error _ => ⟨true, some 3, [1, 2, 3], wr⟩

/-- A pixel map: value at (row, column).  Claims fix concrete bounds, so
out-of-range coordinates are simply never consulted. -/
abbrev PixF := ℕ → ℕ → ℕ

/-- Clamp an integer coordinate into `[0, n-1]` (OpenCV
`BORDER_REPLICATE`). -/
def clampIdx (n : ℕ) (x : ℤ) : ℕ := (min (max x 0) (Int.ofNat n - 1)).toNat

/-- Offsets `-k .. k`. -/
def offs (k : ℕ) : List ℤ := (List.range (2 * k + 1)).map fun t => (t : ℤ) - (k : ℤ)

/-- The `(2k+1) × (2k+1)` neighbourhood of a pixel, with replicated
borders. -/
def nbhd (k h w : ℕ) (f : PixF) (i j : ℕ) : List ℕ :=
  (offs k).flatMap fun di => (offs k).map fun dj =>
    f (clampIdx h ((i : ℤ) + di)) (clampIdx w ((j : ℤ) + dj))

/-- `cv2.dilate` with a 3×3 all-ones kernel: neighbourhood maximum. -/
def dilateP (h w : ℕ) (f : PixF) : PixF := fun i j => (nbhd 1 h w f i j).foldl max 0

/-- `cv2.erode` with a 3×3 all-ones kernel: neighbourhood minimum. -/
def erodeP (h w : ℕ) (f : PixF) : PixF := fun i j =>
  match nbhd 1 h w f i j with
  | [] => 0
  | x :: xs => xs.foldl min x

/-- `cv2.morphologyEx(..., MORPH_CLOSE, 3×3)`: dilation then erosion. -/
def closeP (h w : ℕ) (f : PixF) : PixF := erodeP h w (dilateP h w f)

/-- `cv2.medianBlur(..., 5)`: median of the 5×5 neighbourhood. -/
def medianBlurP (h w : ℕ) (f : PixF) : PixF := fun i j =>
  ((nbhd 2 h w f i j).insertionSort (· ≤ ·)).getD 12 0

/-- Line 43 of opencv-fallback.py:
`mask2 = np.where((mask == 2) | (mask == 0), 0, 1)` applied to the raw
GrabCut label map. -/
def compositeMask2 (raw : PixF) : PixF := fun i j =>
  if raw i j = 2 ∨ raw i j = 0 then 0 else 1

/-- Lines 47–52: the Canny edge map, morphologically closed then dilated
(3×3 kernel). -/
def compositeEdges (h w : ℕ) (canny : PixF) : PixF :=
  dilateP h w (closeP h w canny)

/-- Line 55: `combined_mask = cv2.bitwise_or(mask2, (edges > 0).astype(uint8))`. -/
def compositeCombined (h w : ℕ) (raw canny : PixF) : PixF := fun i j =>
  Nat.lor (compositeMask2 raw i j)
    (if 0 < compositeEdges h w canny i j then 1 else 0)

/-- Lines 73–77: the two `cv2.inRange` background masks (values in
{0,255}) are OR-ed, inverted with `bitwise_not` (`255 - x` on uint8), and
morphologically closed. -/
def compositeFg (h w : ℕ) (white gray : PixF) : PixF :=
  closeP h w fun i j => 255 - Nat.lor (white i j) (gray i j)

/-- Lines 80–83: `final_mask = medianBlur(bitwise_or(combined_mask,
fg_from_color), 5)`. -/
def compositeFinalMask (h w : ℕ) (raw canny white gray : PixF) : PixF :=
  medianBlurP h w fun i j =>
    Nat.lor (compositeCombined h w raw canny i j) (compositeFg h w white gray i j)

/-- Line 89: `alpha = final_mask * 255` — a numpy uint8 multiplication,
hence reduced mod 256. -/
def compositeAlpha (h w : ℕ) (raw canny white gray : PixF) : PixF := fun i j =>
  (compositeFinalMask h w raw canny white gray i j * 255) % 256

/-- Split a character list on `/`, keeping empty components
(the behaviour of `str.split('/')`). -/
def splitSlash : List Char → List (List Char)
  | [] => [[]]
  | c :: cs =>
    match splitSlash cs with
    | [] => if c = '/' then [[], []] else [[c]]
    | p :: ps => if c = '/' then [] :: p :: ps else (c :: p) :: ps

/-- Join components with `/`. -/
def joinSlash : List (List Char) → List Char
  | [] => []
  | [p] => p
  | p :: ps => p ++ '/' :: joinSlash ps

/-- `os.path.dirname` for POSIX paths (repository paths contain no
repeated slashes): everything before the last `/`, the empty string when
there is no `/`, and `/` for paths directly under the root. -/
def dirname (p : String) : String :=
  match (splitSlash p.data).dropLast with
  | [] => ""
  | parts => if joinSlash parts = [] then "/" else ⟨joinSlash parts⟩

/-- Outcomes of the library calls made by `remove_background_opencv`
(opencv-fallback.py).  `grabCutRaw` is the `cv2.grabCut` call (`.ok` = the
raw label map it fills in, `.error` = an exception — the function body has
no inner `try`, so it propagates to the single outer handler); `canny`,
`whiteMask`, `grayMask` are the `cv2.Canny` and `cv2.inRange` outputs;
`imwriteOk` is the boolean returned by `cv2.imwrite`, which this pipeline
does check. -/
structure CompositeEnv where
  grabCutRaw : Except String PixF
  canny : PixF
  whiteMask : PixF
  grayMask : PixF
  imwriteOk : Bool

/-- An output image written by the COMPOSITE pipeline: shape plus the
materialized alpha channel (row-major). -/
structure CompositeOut where
  h : ℕ
  w : ℕ
  channels : ℕ
  alpha : List (List ℕ)
deriving DecidableEq

/-- Materialize a pixel map over an `h × w` grid. -/
def alphaGrid (h w : ℕ) (f : PixF) : List (List ℕ) :=
  (List.range h).map fun i => (List.range w).map fun j => f i j

/-- `remove_background_opencv` (opencv-fallback.py lines 13–113), the
COMPOSITE policy.  Returns the `(success, error)` pair of the source
together with the output file on disk (`none` when nothing was written).
Faithful control flow: a failed image load returns an error; a `grabCut`
exception aborts the whole call via the single outer handler; the mask
combination itself is pure and cannot fail; `os.makedirs(dirname, exist_ok=True)`
is called unconditionally and raises `FileNotFoundError` when `dirname`
is the empty string (bare-filename output path), which the outer handler
converts to a failure; finally the checked `cv2.imwrite`. -/
def remove_background_opencv (img : Option Img) (env : CompositeEnv)
    (outputPath : String) : Bool × Option String × Option CompositeOut :=
  match img with
  | none => (false, some "Could not load image", none)
  | some im =>
    match env.grabCutRaw with
    | .error e => (false, some e, none)
    | .ok raw =>
      let a := compositeAlpha im.h im.w raw env.canny env.whiteMask env.grayMask
      let out : CompositeOut := ⟨im.h, im.w, 4, alphaGrid im.h im.w a⟩
      if dirname outputPath = "" then (false, some "FileNotFoundError", none)
      else if env.imwriteOk then (true, none, some out)
      else (false, some "Failed to save processed image", none)

/-- The degenerate mesh of the spec's scenario: all vertices identical,
so every bounding-box extent is zero. -/
def degenerateAsset : LoadedAsset :=
  .single ⟨[(1, 2, 3), (1, 2, 3), (1, 2, 3)], [(0, 1, 2)]⟩

unseal Rat.add Rat.sub Rat.mul Rat.inv in
/-- C1: the claim says a degenerate (zero-size) bounding box makes
`normalize_mesh_scale` return a failure result with a descriptive error
and write no output file.  The code has no such guard: the numpy division
`target_size_mm / max_extent` at line 202 yields `inf` without raising,
the non-finite scale silently propagates through the vertex transform,
the STL is exported, and the success dictionary is returned.  This
theorem evaluates the pipeline at the degenerate mesh: the output file is
written, the result is a success record, and its scale factor is
non-finite. -/
theorem c1_degenerate_mesh_reports_success :
    (normalize_mesh_scale degenerateAsset 100).2 = true ∧
    (exceptOk (normalize_mesh_scale degenerateAsset 100).1).map
        (fun r => r.scale_factor) = some FQ.nonfin ∧
    (exceptOk (normalize_mesh_scale degenerateAsset 100).1).map
        (fun r => r.new_max_extent_mm) = some FQ.nonfin := by
  decide

/-- The all-zero pixel map: models a uniform dark input image on which
GrabCut labels every pixel background (raw label 0), Canny finds no
edges, and both `inRange` background-colour masks are empty. -/
def rawZero : PixF := fun _ _ => 0

/-- C2: the claim says every pixel of the COMPOSITE combined mask is 0 or
1 and every alpha pixel is exactly 0 or 255.  The code violates this:
`fg_from_color` has values in {0,255}, so `bitwise_or(combined_mask,
fg_from_color)` produces 255, and the uint8 multiplication
`final_mask * 255` wraps 255·255 to 1.  On a 1×1 image with the all-zero
environment the call succeeds, the final mask pixel is 255 (not in
{0,1}), and the written alpha pixel is 1 (neither 0 nor 255). -/
theorem c2_mask_not_binary_alpha_overflow :
    remove_background_opencv (some ⟨1, 1⟩)
        ⟨.ok rawZero, rawZero, rawZero, rawZero, true⟩ "a/b.png"
      = (true, none, some ⟨1, 1, 4, [[1]]⟩) ∧
    compositeFinalMask 1 1 rawZero rawZero rawZero rawZero 0 0 = 255 ∧
    compositeAlpha 1 1 rawZero rawZero rawZero rawZero 0 0 = 1 := by
  decide

/-- C4 (counterexample): the claim says a method-1 exception under
COMPOSITE is recovered locally and the pipeline continues.  It is not:
with every other stage benign, a GrabCut exception makes the whole call
return failure, while the identical environment with GrabCut succeeding
returns success — so the abort is caused precisely by method 1's
failure. -/
theorem c4_composite_grabcut_failure_cex :
    remove_background_opencv (some ⟨1, 1⟩)
        ⟨.error "boom", rawZero, rawZero, rawZero, true⟩ "a/b.png"
      = (false, some "boom", none) ∧
    (remove_background_opencv (some ⟨1, 1⟩)
        ⟨.ok rawZero, rawZero, rawZero, rawZero, true⟩ "a/b.png").1 = true := by
  decide

/-- C4 (amended): under COMPOSITE an exception in the region-growing
method is NOT recovered locally — `remove_background_opencv` has a single
outer handler, so the call aborts, returns failure carrying that error,
writes no output, and methods 2 and 3 never run (the result does not
depend on any of their inputs). -/
theorem c4_composite_grabcut_failure_aborts (im : Img) (env : CompositeEnv)
    (path : String) (e : String) (h : env.grabCutRaw = .error e) :
    remove_background_opencv (some im) env path = (false, some e, none) := by
  simp [remove_background_opencv, h]

/-- C4 witness. -/
theorem c4_composite_grabcut_failure_aborts_witness :
    remove_background_opencv (some ⟨1, 1⟩)
        ⟨.error "numerical error", rawZero, rawZero, rawZero, true⟩ "a/b.png"
      = (false, some "numerical error", none) :=
  c4_composite_grabcut_failure_aborts ⟨1, 1⟩
    ⟨.error "numerical error", rawZero, rawZero, rawZero, true⟩
    "a/b.png" "numerical error" rfl

/-- C9: in the CASCADE implementation the boolean returned by
`cv2.imwrite` is never inspected: whenever the final write fails without
raising (`imwriteOk = false`), `remove_background` still returns `True`
although no output file exists. -/
theorem c9_cascade_ignores_imwrite_result (im : Img) (env : CascadeEnv)
    (h : env.imwriteOk = false) :
    (remove_background (some im) env).success = true ∧
    (remove_background (some im) env).written = none := by
  cases hg : env.grabCut with
  | ok u => simp [remove_background, hg, h]
  | error e =>
    cases hc : env.contours with
    | ok cs =>
      by_cases hcs : cs.isEmpty <;> simp [remove_background, hg, hc, hcs, h]
    | error e2 => simp [remove_background, hg, hc, h]

/-- C9 witness. -/
theorem c9_cascade_ignores_imwrite_result_witness :
    (remove_background (some ⟨2, 3⟩) ⟨.ok (), .ok [], false⟩).success = true ∧
    (remove_background (some ⟨2, 3⟩) ⟨.ok (), .ok [], false⟩).written = none :=
  c9_cascade_ignores_imwrite_result ⟨2, 3⟩ ⟨.ok (), .ok [], false⟩ rfl

/-- C10: when the COMPOSITE output path has no directory component
(`os.path.dirname` yields `""`), the unconditional
`os.makedirs(output_dir, exist_ok=True)` raises `FileNotFoundError`, the
outer handler converts it into a failure result and nothing is written —
even though every segmentation step succeeded. -/
theorem c10_bare_filename_output_fails (im : Img) (env : CompositeEnv)
    (path : String) (raw : PixF) (hok : env.grabCutRaw = .ok raw)
    (hd : dirname path = "") :
    remove_background_opencv (some im) env path
      = (false, some "FileNotFoundError", none) := by
  simp [remove_background_opencv, hok, hd]

/-- C10 witness. -/
theorem c10_bare_filename_output_fails_witness :
    remove_background_opencv (some ⟨1, 1⟩)
        ⟨.ok rawZero, rawZero, rawZero, rawZero, true⟩ "output.png"
      = (false, some "FileNotFoundError", none) :=
  c10_bare_filename_output_fails ⟨1, 1⟩
    ⟨.ok rawZero, rawZero, rawZero, rawZero, true⟩ "output.png" rawZero rfl
    (by decide)

/-- C3: CASCADE method selection.  For every loaded image: if the
region-growing method (code method 1) completes without exception, its
mask is used, the call succeeds, and the contour method (code method 2,
spec method 4) and circular fallback (code method 3, spec method 5) are
never entered; if method 1 raises and the contour stage yields at least
one contour, the contour mask is used; the circular fallback runs only
when method 1 raised and the contour stage raised or found no contours,
and it always succeeds. -/
theorem c3_cascade_first_success_wins (im : Img) (env : CascadeEnv) :
    (∀ u, env.grabCut = .ok u →
      remove_background (some im) env =
        ⟨true, some 1, [1],
         if env.imwriteOk then some ⟨im.h, im.w, 4⟩ else none⟩) ∧
    (∀ e cs, env.grabCut = .error e → env.contours = .ok cs → cs ≠ [] →
      (remove_background (some im) env).used = some 2 ∧
      (remove_background (some im) env).invoked = [1, 2] ∧
      (remove_background (some im) env).success = true) ∧
    (∀ e, env.grabCut = .error e →
      (env.contours = .ok [] ∨ ∃ e2, env.contours = .error e2) →
      (remove_background (some im) env).used = some 3 ∧
      (remove_background (some im) env).success = true) := by
  refine ⟨?_, ?_, ?_⟩
  · intro u h
    simp [remove_background, h]
  · intro e cs h1 h2 h3
    have hcs : cs.isEmpty = false := by
      cases cs with
      | nil => exact absurd rfl h3
      | cons a l => rfl
    simp [remove_background, h1, h2, hcs]
  · intro e h1 h2
    rcases h2 with h2 | ⟨e2, h2⟩ <;> simp [remove_background, h1, h2]

/-- C3 witness: one environment per branch. -/
theorem c3_cascade_first_success_wins_witness :
    remove_background (some ⟨2, 3⟩) ⟨.ok (), .error "unused", true⟩ =
      ⟨true, some 1, [1], some ⟨2, 3, 4⟩⟩ ∧
    ((remove_background (some ⟨2, 3⟩) ⟨.error "g", .ok [7], true⟩).used = some 2 ∧
     (remove_background (some ⟨2, 3⟩) ⟨.error "g", .ok [7], true⟩).invoked = [1, 2] ∧
     (remove_background (some ⟨2, 3⟩) ⟨.error "g", .ok [7], true⟩).success = true) ∧
    ((remove_background (some ⟨2, 3⟩) ⟨.error "g", .ok [], true⟩).used = some 3 ∧
     (remove_background (some ⟨2, 3⟩) ⟨.error "g", .ok [], true⟩).success = true) := by
  refine ⟨?_, ?_, ?_⟩
  · have h := (c3_cascade_first_success_wins ⟨2, 3⟩ ⟨.ok (), .error "unused", true⟩).1 () rfl
    simpa using h
  · exact (c3_cascade_first_success_wins ⟨2, 3⟩ ⟨.error "g", .ok [7], true⟩).2.1 "g" [7]
      rfl rfl (by decide)
  · exact (c3_cascade_first_success_wins ⟨2, 3⟩ ⟨.error "g", .ok [], true⟩).2.2 "g"
      rfl (Or.inl rfl)

/-- C8: for every successfully loaded image, under either policy, any
written output image has exactly the input's height and width and exactly
4 channels. -/
theorem c8_output_shape (im : Img) (cenv : CascadeEnv) (oenv : CompositeEnv)
    (path : String) (o : CascadeOut) (o2 : CompositeOut) :
    ((remove_background (some im) cenv).written = some o →
      o.h = im.h ∧ o.w = im.w ∧ o.channels = 4) ∧
    ((remove_background_opencv (some im) oenv path).2.2 = some o2 →
      o2.h = im.h ∧ o2.w = im.w ∧ o2.channels = 4) := by
  constructor
  · intro h
    have hw : (remove_background (some im) cenv).written =
        (if cenv.imwriteOk then some ⟨im.h, im.w, 4⟩ else none) := by
      cases hg : cenv.grabCut with
      | ok u => simp [remove_background, hg]
      | error e =>
        cases hc : cenv.contours with
        | ok cs => by_cases hcs : cs.isEmpty <;> simp [remove_background, hg, hc, hcs]
        | error e2 => simp [remove_background, hg, hc]
    rw [hw] at h
    by_cases hk : cenv.imwriteOk
    · rw [if_pos hk] at h
      have := Option.some.inj h
      subst this
      exact ⟨rfl, rfl, rfl⟩
    · rw [if_neg hk] at h
      exact absurd h (Option.noConfusion)
  · intro h
    cases hg : oenv.grabCutRaw with
    | error e => simp [remove_background_opencv, hg] at h
    | ok raw =>
      by_cases hd : dirname path = ""
      · simp [remove_background_opencv, hg, hd] at h
      · by_cases hk : oenv.imwriteOk
        · have : some (⟨im.h, im.w, 4,
              alphaGrid im.h im.w (compositeAlpha im.h im.w raw oenv.canny
                oenv.whiteMask oenv.grayMask)⟩ : CompositeOut) = some o2 := by
            simpa [remove_background_opencv, hg, hd, hk] using h
          have := Option.some.inj this
          subst this
          exact ⟨rfl, rfl, rfl⟩
        · simp [remove_background_opencv, hg, hd, hk] at h

/-- C8 witness: one written output per policy, shape checked. -/
theorem c8_output_shape_witness :
    ((⟨2, 3, 4⟩ : CascadeOut).h = 2 ∧ (⟨2, 3, 4⟩ : CascadeOut).w = 3 ∧
      (⟨2, 3, 4⟩ : CascadeOut).channels = 4) ∧
    ((⟨1, 1, 4, [[1]]⟩ : CompositeOut).h = 1 ∧
      (⟨1, 1, 4, [[1]]⟩ : CompositeOut).w = 1 ∧
      (⟨1, 1, 4, [[1]]⟩ : CompositeOut).channels = 4) :=
  ⟨(c8_output_shape ⟨2, 3⟩ ⟨.ok (), .ok [], true⟩
      ⟨.ok rawZero, rawZero, rawZero, rawZero, true⟩ "a/b.png" ⟨2, 3, 4⟩
      ⟨1, 1, 4, [[1]]⟩).1 (by decide),
   (c8_output_shape ⟨1, 1⟩ ⟨.ok (), .ok [], true⟩
      ⟨.ok rawZero, rawZero, rawZero, rawZero, true⟩ "a/b.png" ⟨2, 3, 4⟩
      ⟨1, 1, 4, [[1]]⟩).2 (by decide)⟩

/-- Every face of a geometry references only in-range vertex indices. -/
def facesOkB (g : Geometry) : Bool :=
  g.faces.all fun f =>
    decide (f.1 < g.vertices.length) && decide (f.2.1 < g.vertices.length) &&
    decide (f.2.2 < g.vertices.length)

lemma facesOkB_iff (g : Geometry) :
    facesOkB g = true ↔ ∀ f ∈ g.faces, f.1 < g.vertices.length ∧
      f.2.1 < g.vertices.length ∧ f.2.2 < g.vertices.length := by
  simp [facesOkB, List.all_eq_true, Bool.and_eq_true, decide_eq_true_eq, and_assoc]

lemma concat_vertices_length (gs : List Geometry) :
    ∀ acc : Geometry, (gs.foldl appendGeom acc).vertices.length
      = acc.vertices.length + (gs.map fun g => g.vertices.length).sum := by
  induction gs with
  | nil => intro acc; simp
  | cons g gs ih =>
    intro acc
    simp only [List.foldl_cons, List.map_cons, List.sum_cons]
    rw [ih (appendGeom acc g)]
    simp [appendGeom, List.length_append]
    omega

lemma facesOkB_appendGeom (acc g : Geometry) (h1 : facesOkB acc = true)
    (h2 : facesOkB g = true) : facesOkB (appendGeom acc g) = true := by
  rw [facesOkB_iff] at h1 h2 ⊢
  intro f hf
  have hlen : (appendGeom acc g).vertices.length
      = acc.vertices.length + g.vertices.length := by
    simp [appendGeom, List.length_append]
  have hfaces : (appendGeom acc g).faces
      = acc.faces ++ g.faces.map fun f0 =>
          (f0.1 + acc.vertices.length, f0.2.1 + acc.vertices.length,
           f0.2.2 + acc.vertices.length) := rfl
  rw [hfaces] at hf
  rw [hlen]
  rcases List.mem_append.mp hf with hf | hf
  · have := h1 f hf
    omega
  · rcases List.mem_map.mp hf with ⟨f0, hf0, rfl⟩
    have := h2 f0 hf0
    simp only []
    omega

lemma facesOkB_concat (gs : List Geometry) :
    ∀ acc : Geometry, facesOkB acc = true → (∀ g ∈ gs, facesOkB g = true) →
      facesOkB (gs.foldl appendGeom acc) = true := by
  induction gs with
  | nil =>
    intro acc h _
    simpa using h
  | cons g gs ih =>
    intro acc h1 h2
    simp only [List.foldl_cons]
    refine ih (appendGeom acc g)
      (facesOkB_appendGeom acc g h1 (h2 g (List.mem_cons_self g gs))) ?_
    intro g2 hg2
    exact h2 g2 (List.mem_cons_of_mem g hg2)

/-- C6: merging.  Whenever every geometry of a scene has in-range face
indices, the merged geometry produced by `concatGeoms` over the non-empty
geometries (zero-vertex geometries are dropped by the filter in
`nonEmptyGeoms`) has exactly the sum of their vertex counts — in
particular two non-empty geometries of V1 and V2 vertices merge to
V1 + V2 vertices — its offset face indices are all in range, and a scene
yielding no non-empty geometries makes the load fail with the
`"No valid geometries found in GLB file"` error. -/
theorem c6_scene_merge_concatenation (gs : List (String × Geometry))
    (hv : ∀ p ∈ gs, facesOkB p.2 = true) :
    (concatGeoms (nonEmptyGeoms gs)).vertices.length
        = ((nonEmptyGeoms gs).map fun g => g.vertices.length).sum
    ∧ facesOkB (concatGeoms (nonEmptyGeoms gs)) = true
    ∧ (nonEmptyGeoms gs = [] →
        loadMerged (.scene gs) = .error "No valid geometries found in GLB file") := by
  refine ⟨?_, ?_, ?_⟩
  · simpa using concat_vertices_length (nonEmptyGeoms gs) ⟨[], []⟩
  · refine facesOkB_concat (nonEmptyGeoms gs) ⟨[], []⟩ (by rfl) ?_
    intro g hg
    rcases List.mem_map.mp hg with ⟨p, hp, rfl⟩
    exact hv p (List.mem_of_mem_filter hp)
  · intro h
    simp [loadMerged, h]

/-- A 3-vertex, 1-face geometry used as merge input. -/
def geomA : Geometry := ⟨[(0, 0, 0), (1, 0, 0), (0, 1, 0)], [(0, 1, 2)]⟩

/-- A 2-vertex, faceless geometry used as merge input. -/
def geomB : Geometry := ⟨[(0, 0, 1), (1, 0, 1)], []⟩

/-- A zero-vertex geometry, dropped by the merge filter. -/
def geomEmpty : Geometry := ⟨[], []⟩

/-- C6 witness: a scene with non-empty geometries of 3 and 2 vertices and
one empty geometry. -/
theorem c6_scene_merge_concatenation_witness :
    (concatGeoms (nonEmptyGeoms [("a", geomA), ("b", geomB), ("c", geomEmpty)])).vertices.length
        = ((nonEmptyGeoms [("a", geomA), ("b", geomB), ("c", geomEmpty)]).map
            fun g => g.vertices.length).sum
    ∧ facesOkB (concatGeoms (nonEmptyGeoms [("a", geomA), ("b", geomB), ("c", geomEmpty)])) = true
    ∧ (nonEmptyGeoms [("a", geomA), ("b", geomB), ("c", geomEmpty)] = [] →
        loadMerged (.scene [("a", geomA), ("b", geomB), ("c", geomEmpty)])
          = .error "No valid geometries found in GLB file") :=
  c6_scene_merge_concatenation [("a", geomA), ("b", geomB), ("c", geomEmpty)]
    (by decide)

lemma length_le_fillHoles (faces : List Face) :
    faces.length ≤ (fillHoles faces).length := by
  simp only [fillHoles]
  split
  · split
    · simp
    · exact Nat.le_refl _
  · exact Nat.le_refl _

/-- C7 (counterexample): the claim says the returned `face_count` equals
the merged geometry's face total.  It does not: the counts are read only
at line 250, after `fill_holes` has possibly mutated the mesh.  For a
scene holding a tetrahedron with one face missing, the merged geometry
has 3 faces, the repair step adds the missing one, and the returned
`face_count` is 4. -/
theorem c7_face_count_after_repair_cex :
    ((exceptOk (normalize_mesh_scale
        (.scene [("tetra", ⟨[(0, 0, 0), (1, 0, 0), (0, 1, 0), (0, 0, 1)],
          [(0, 1, 2), (0, 1, 3), (0, 2, 3)]⟩)]) 100).1).map fun r => r.face_count)
      = some 4 ∧
    ((exceptOk (loadMerged
        (.scene [("tetra", ⟨[(0, 0, 0), (1, 0, 0), (0, 1, 0), (0, 0, 1)],
          [(0, 1, 2), (0, 1, 3), (0, 2, 3)]⟩)]))).map fun m => m.faces.length)
      = some 3 := by
  decide

/-- C7 (amended): for every successful invocation, `vertex_count` equals
the merged geometry's vertex total (neither the transform nor the
modelled repair touches vertices), while `face_count` equals the face
total of the geometry at export time — i.e. after the watertightness
check and possible hole-filling repair — which is at least the merged
face total and equals it exactly when repair changes nothing. -/
theorem c7_result_counts (asset : LoadedAsset) (target : ℚ) (m : Geometry)
    (h : loadMerged asset = .ok m) :
    ∃ r, (normalize_mesh_scale asset target).1 = .ok r ∧
      r.vertex_count = m.vertices.length ∧
      r.face_count = (exportFaces m.faces).length ∧
      m.faces.length ≤ r.face_count := by
  unfold normalize_mesh_scale
  rw [h]
  refine ⟨_, rfl, ?_, rfl, ?_⟩
  · simp [transVerts]
  · show m.faces.length ≤ (exportFaces m.faces).length
    unfold exportFaces
    split
    · exact Nat.le_refl _
    · exact length_le_fillHoles m.faces

/-- The complete tetrahedron, already watertight. -/
def tetraGeom : Geometry :=
  ⟨[(0, 0, 0), (1, 0, 0), (0, 1, 0), (0, 0, 1)],
   [(0, 1, 2), (0, 1, 3), (0, 2, 3), (1, 2, 3)]⟩

/-- C7 witness. -/
theorem c7_result_counts_witness :
    ∃ r, (normalize_mesh_scale (.single tetraGeom) 100).1 = .ok r ∧
      r.vertex_count = tetraGeom.vertices.length ∧
      r.face_count = (exportFaces tetraGeom.faces).length ∧
      tetraGeom.faces.length ≤ r.face_count :=
  c7_result_counts (.single tetraGeom) 100 tetraGeom rfl

lemma mul_max_q (s a b : ℚ) (hs : 0 ≤ s) : s * max a b = max (s * a) (s * b) := by
  rcases le_total a b with h | h
  · rw [max_eq_right h, max_eq_right (mul_le_mul_of_nonneg_left h hs)]
  · rw [max_eq_left h, max_eq_left (mul_le_mul_of_nonneg_left h hs)]

lemma mul_min_q (s a b : ℚ) (hs : 0 ≤ s) : s * min a b = min (s * a) (s * b) := by
  rcases le_total a b with h | h
  · rw [min_eq_left h, min_eq_left (mul_le_mul_of_nonneg_left h hs)]
  · rw [min_eq_right h, min_eq_right (mul_le_mul_of_nonneg_left h hs)]

lemma scale_sub_max (s c a b : ℚ) (hs : 0 ≤ s) :
    max (s * (a - c)) (s * (b - c)) = s * (max a b - c) := by
  rw [← max_sub_sub_right a b c, mul_max_q s (a - c) (b - c) hs]

lemma scale_sub_min (s c a b : ℚ) (hs : 0 ≤ s) :
    min (s * (a - c)) (s * (b - c)) = s * (min a b - c) := by
  rw [← min_sub_sub_right a b c, mul_min_q s (a - c) (b - c) hs]

lemma foldl_max_scale (s c : ℚ) (hs : 0 ≤ s) (l : List ℚ) :
    ∀ a, (l.map fun x => s * (x - c)).foldl max (s * (a - c))
      = s * (l.foldl max a - c) := by
  induction l with
  | nil => intro a; rfl
  | cons x xs ih =>
    intro a
    simp only [List.map_cons, List.foldl_cons]
    rw [scale_sub_max s c a x hs]
    exact ih (max a x)

lemma foldl_min_scale (s c : ℚ) (hs : 0 ≤ s) (l : List ℚ) :
    ∀ a, (l.map fun x => s * (x - c)).foldl min (s * (a - c))
      = s * (l.foldl min a - c) := by
  induction l with
  | nil => intro a; rfl
  | cons x xs ih =>
    intro a
    simp only [List.map_cons, List.foldl_cons]
    rw [scale_sub_min s c a x hs]
    exact ih (min a x)

lemma qmaxL_map_scale (s c : ℚ) (hs : 0 ≤ s) (x : ℚ) (xs : List ℚ) :
    qmaxL ((x :: xs).map fun t => s * (t - c)) = s * (qmaxL (x :: xs) - c) := by
  simp only [List.map_cons, qmaxL]
  exact foldl_max_scale s c hs xs x

lemma qminL_map_scale (s c : ℚ) (hs : 0 ≤ s) (x : ℚ) (xs : List ℚ) :
    qminL ((x :: xs).map fun t => s * (t - c)) = s * (qminL (x :: xs) - c) := by
  simp only [List.map_cons, qminL]
  exact foldl_min_scale s c hs xs x

lemma foldl_fmax_map_fin (l : List ℚ) :
    ∀ a, (l.map FQ.fin).foldl FQ.fmax (.fin a) = .fin (l.foldl max a) := by
  induction l with
  | nil => intro a; rfl
  | cons x xs ih =>
    intro a
    simp only [List.map_cons, List.foldl_cons]
    exact ih (max a x)

lemma foldl_fmin_map_fin (l : List ℚ) :
    ∀ a, (l.map FQ.fin).foldl FQ.fmin (.fin a) = .fin (l.foldl min a) := by
  induction l with
  | nil => intro a; rfl
  | cons x xs ih =>
    intro a
    simp only [List.map_cons, List.foldl_cons]
    exact ih (min a x)

lemma fmaxL_map_fin (x : ℚ) (xs : List ℚ) :
    fmaxL ((x :: xs).map FQ.fin) = .fin (qmaxL (x :: xs)) := by
  simp only [List.map_cons, fmaxL, qmaxL]
  exact foldl_fmax_map_fin xs x

lemma fminL_map_fin (x : ℚ) (xs : List ℚ) :
    fminL ((x :: xs).map FQ.fin) = .fin (qminL (x :: xs)) := by
  simp only [List.map_cons, fminL, qminL]
  exact foldl_fmin_map_fin xs x

lemma foldl_fadd_map_fin (l : List ℚ) :
    ∀ a, (l.map FQ.fin).foldl FQ.add (.fin a) = .fin (a + l.sum) := by
  induction l with
  | nil => intro a; simp
  | cons x xs ih =>
    intro a
    simp only [List.map_cons, List.foldl_cons, List.sum_cons]
    exact (ih (a + x)).trans (congrArg FQ.fin (add_assoc a x xs.sum))

lemma fsumL_map_fin (l : List ℚ) : fsumL (l.map FQ.fin) = .fin l.sum := by
  have h := foldl_fadd_map_fin l 0
  simpa [fsumL] using h

lemma fcentroid_map_fin (l : List ℚ) :
    fcentroid (l.map FQ.fin) = .fin (l.sum / l.length) := by
  simp [fcentroid, fsumL_map_fin, List.length_map]

lemma sum_map_scale_sub (s c : ℚ) (l : List ℚ) :
    (l.map fun x => s * (x - c)).sum = s * l.sum - l.length * (s * c) := by
  induction l with
  | nil => simp
  | cons x xs ih =>
    simp only [List.map_cons, List.sum_cons, ih, List.length_cons]
    push_cast
    ring

lemma sum_centered_zero (l : List ℚ) (hl : l ≠ []) (s : ℚ) :
    (l.map fun x => s * (x - l.sum / l.length)).sum = 0 := by
  rw [sum_map_scale_sub]
  have hn : (l.length : ℚ) ≠ 0 := by
    exact_mod_cast Nat.cast_ne_zero.mpr (fun h => hl (List.length_eq_zero.mp h))
  field_simp

lemma transVerts_map_fst (vs : List V3) (c : V3) (s0 : ℚ) :
    (transVerts vs c (.fin s0)).map (fun v => v.1)
      = ((xsOf vs).map fun x => s0 * (x - c.1)).map FQ.fin := by
  simp only [transVerts, xsOf, List.map_map]
  rfl

lemma transVerts_map_snd1 (vs : List V3) (c : V3) (s0 : ℚ) :
    (transVerts vs c (.fin s0)).map (fun v => v.2.1)
      = ((ysOf vs).map fun x => s0 * (x - c.2.1)).map FQ.fin := by
  simp only [transVerts, ysOf, List.map_map]
  rfl

lemma transVerts_map_snd2 (vs : List V3) (c : V3) (s0 : ℚ) :
    (transVerts vs c (.fin s0)).map (fun v => v.2.2)
      = ((zsOf vs).map fun x => s0 * (x - c.2.2)).map FQ.fin := by
  simp only [transVerts, zsOf, List.map_map]
  rfl

lemma axis_centroid_zero (l : List ℚ) (hl : l ≠ []) (s0 : ℚ) :
    fcentroid ((l.map fun x => s0 * (x - l.sum / l.length)).map FQ.fin)
      = .fin 0 := by
  rw [fcentroid_map_fin, sum_centered_zero l hl s0, zero_div]

lemma axis_extent_fin (s0 c x : ℚ) (xs : List ℚ) (hs : 0 ≤ s0) :
    (fmaxL (((x :: xs).map fun t => s0 * (t - c)).map FQ.fin)).sub
        (fminL (((x :: xs).map fun t => s0 * (t - c)).map FQ.fin))
      = .fin (s0 * (qmaxL (x :: xs) - qminL (x :: xs))) := by
  have h1 : (x :: xs).map (fun t => s0 * (t - c))
      = s0 * (x - c) :: xs.map (fun t => s0 * (t - c)) := rfl
  rw [h1, fmaxL_map_fin, fminL_map_fin, ← h1,
    qmaxL_map_scale s0 c hs x xs, qminL_map_scale s0 c hs x xs]
  show FQ.fin (s0 * (qmaxL (x :: xs) - c) - s0 * (qminL (x :: xs) - c)) = _
  ring_nf

lemma fmax3_fin_scale (s0 e1 e2 e3 : ℚ) (hs : 0 ≤ s0) :
    fmax3 (.fin (s0 * e1), .fin (s0 * e2), .fin (s0 * e3))
      = .fin (s0 * max3 (e1, e2, e3)) := by
  show FQ.fin (max (s0 * e1) (max (s0 * e2) (s0 * e3))) = _
  rw [← mul_max_q s0 e2 e3 hs, ← mul_max_q s0 e1 (max e2 e3) hs]
  rfl

/-- C5: for every mesh with non-degenerate extents (and positive target
size), `normalize_mesh_scale` succeeds, its scale factor is exactly
`target_size_mm / max(original_extents)`, the centroid of the transformed
vertices is exactly the origin (the floating-point-tolerance claim, exact
in this idealized arithmetic), and the returned maximum new extent is
exactly `target_size_mm`. -/
theorem c5_normalize_scale_and_center (asset : LoadedAsset) (target : ℚ)
    (m : Geometry) (h1 : loadMerged asset = .ok m) (h2 : m.vertices ≠ [])
    (h3 : 0 < max3 (extentsQ m.vertices)) (h4 : 0 < target) :
    ∃ r, (normalize_mesh_scale asset target).1 = .ok r ∧
      r.scale_factor = .fin (target / max3 (extentsQ m.vertices)) ∧
      fcentroid3 (transVerts m.vertices (centroidQ m.vertices)
          (.fin (target / max3 (extentsQ m.vertices))))
        = (.fin 0, .fin 0, .fin 0) ∧
      r.new_max_extent_mm = .fin target := by
  obtain ⟨v, vs2, hvs⟩ := List.exists_cons_of_ne_nil h2
  set s0 := target / max3 (extentsQ m.vertices) with hs0
  have hmaxne : max3 (extentsQ m.vertices) ≠ 0 := ne_of_gt h3
  have hsf : fdivQ target (max3 (extentsQ m.vertices)) = .fin s0 := by
    simp only [fdivQ, if_neg hmaxne]
  have hs0nn : 0 ≤ s0 := le_of_lt (div_pos h4 h3)
  have hxcons : xsOf m.vertices = v.1 :: xsOf vs2 := by rw [hvs]; rfl
  have hycons : ysOf m.vertices = v.2.1 :: ysOf vs2 := by rw [hvs]; rfl
  have hzcons : zsOf m.vertices = v.2.2 :: zsOf vs2 := by rw [hvs]; rfl
  have hxne : xsOf m.vertices ≠ [] := by rw [hxcons]; exact List.cons_ne_nil _ _
  have hyne : ysOf m.vertices ≠ [] := by rw [hycons]; exact List.cons_ne_nil _ _
  have hzne : zsOf m.vertices ≠ [] := by rw [hzcons]; exact List.cons_ne_nil _ _
  have hcent : fcentroid3 (transVerts m.vertices (centroidQ m.vertices) (.fin s0))
      = (.fin 0, .fin 0, .fin 0) := by
    have hA : fcentroid ((transVerts m.vertices (centroidQ m.vertices)
        (.fin s0)).map fun v => v.1) = .fin 0 := by
      rw [transVerts_map_fst]
      have hc1 : (centroidQ m.vertices).1
          = (xsOf m.vertices).sum / (xsOf m.vertices).length := by
        simp [centroidQ, xsOf, List.length_map]
      rw [hc1]
      exact axis_centroid_zero (xsOf m.vertices) hxne s0
    have hB : fcentroid ((transVerts m.vertices (centroidQ m.vertices)
        (.fin s0)).map fun v => v.2.1) = .fin 0 := by
      rw [transVerts_map_snd1]
      have hc2 : (centroidQ m.vertices).2.1
          = (ysOf m.vertices).sum / (ysOf m.vertices).length := by
        simp [centroidQ, ysOf, List.length_map]
      rw [hc2]
      exact axis_centroid_zero (ysOf m.vertices) hyne s0
    have hC : fcentroid ((transVerts m.vertices (centroidQ m.vertices)
        (.fin s0)).map fun v => v.2.2) = .fin 0 := by
      rw [transVerts_map_snd2]
      have hc3 : (centroidQ m.vertices).2.2
          = (zsOf m.vertices).sum / (zsOf m.vertices).length := by
        simp [centroidQ, zsOf, List.length_map]
      rw [hc3]
      exact axis_centroid_zero (zsOf m.vertices) hzne s0
    simp only [fcentroid3]
    rw [hA, hB, hC]
  have hEx : (fmaxL ((transVerts m.vertices (centroidQ m.vertices)
        (.fin s0)).map fun v => v.1)).sub
      (fminL ((transVerts m.vertices (centroidQ m.vertices)
        (.fin s0)).map fun v => v.1))
      = .fin (s0 * (extentsQ m.vertices).1) := by
    rw [transVerts_map_fst, hxcons,
      axis_extent_fin s0 (centroidQ m.vertices).1 v.1 (xsOf vs2) hs0nn,
      ← hxcons]
    rfl
  have hEy : (fmaxL ((transVerts m.vertices (centroidQ m.vertices)
        (.fin s0)).map fun v => v.2.1)).sub
      (fminL ((transVerts m.vertices (centroidQ m.vertices)
        (.fin s0)).map fun v => v.2.1))
      = .fin (s0 * (extentsQ m.vertices).2.1) := by
    rw [transVerts_map_snd1, hycons,
      axis_extent_fin s0 (centroidQ m.vertices).2.1 v.2.1 (ysOf vs2) hs0nn,
      ← hycons]
    rfl
  have hEz : (fmaxL ((transVerts m.vertices (centroidQ m.vertices)
        (.fin s0)).map fun v => v.2.2)).sub
      (fminL ((transVerts m.vertices (centroidQ m.vertices)
        (.fin s0)).map fun v => v.2.2))
      = .fin (s0 * (extentsQ m.vertices).2.2) := by
    rw [transVerts_map_snd2, hzcons,
      axis_extent_fin s0 (centroidQ m.vertices).2.2 v.2.2 (zsOf vs2) hs0nn,
      ← hzcons]
    rfl
  have hmax : fmax3 (extentsF (transVerts m.vertices (centroidQ m.vertices)
      (.fin s0))) = .fin target := by
    simp only [extentsF]
    rw [hEx, hEy, hEz, fmax3_fin_scale s0 _ _ _ hs0nn]
    show FQ.fin (s0 * max3 (extentsQ m.vertices)) = _
    rw [hs0, div_mul_cancel₀ target hmaxne]
  unfold normalize_mesh_scale
  rw [h1]
  refine ⟨_, rfl, ?_, hcent, ?_⟩
  · exact hsf
  · show fmax3 (extentsF (transVerts m.vertices (centroidQ m.vertices)
      (fdivQ target (max3 (extentsQ m.vertices))))) = FQ.fin target
    rw [hsf]
    exact hmax

/-- The C5 witness mesh: a right triangle with extents (2, 2, 0). -/
def triangleGeom : Geometry := ⟨[(0, 0, 0), (2, 0, 0), (0, 2, 0)], [(0, 1, 2)]⟩

unseal Rat.add Rat.sub Rat.mul Rat.inv in
/-- C5 witness. -/
theorem c5_normalize_scale_and_center_witness :
    ∃ r, (normalize_mesh_scale (.single triangleGeom) 100).1 = .ok r ∧
      r.scale_factor = .fin (100 / max3 (extentsQ triangleGeom.vertices)) ∧
      fcentroid3 (transVerts triangleGeom.vertices (centroidQ triangleGeom.vertices)
          (.fin (100 / max3 (extentsQ triangleGeom.vertices))))
        = (.fin 0, .fin 0, .fin 0) ∧
      r.new_max_extent_mm = .fin 100 :=
  c5_normalize_scale_and_center (.single triangleGeom) 100 triangleGeom rfl
    (by decide) (by decide) (by decide)
